import Mathlib

/-!
Shallow embedding of the feishu-bot session orchestration engine.

The Go sources embedded here:
- `pkg/models/types.go` — data model (`Conversation`, `RequiredFields`,
  `OptionalFields`, `IsInfoComplete`, `GetMissingFields`, summaries).
- `internal/llm/client.go` — `ExtractionResult`, `AllFieldKeys`,
  `FieldDisplayNames`, `ToFieldMap`.
- `internal/conversation/manager.go` — `ProcessMessage`, `isSuggestion`,
  `handleSuggestion`, `handleFileMessage`, `mergeExtractedInfo`,
  `buildSmartResponse`, `buildEscalateResponse`.
- `internal/feishu/event_handler.go` — `handlePrivateMessage` (dedup then
  channel-type filter then delegation).
- `internal/conversation/store.go` — `TryMarkMessageProcessed` (Redis SETNX),
  modelled as a set of already-claimed message IDs plus an injected
  transport-error flag.
- `internal/handler/escalate.go` — `HandleEscalation`, `forwardFileInThread`.

Go maps (`map[string]string`, possibly nil) are modelled as
`Option (List (String × String))` with assoc-list lookup/update; mutation of
`*Conversation` is modelled as explicit state passing; calls to external
collaborators (Redis, the LLM, the Feishu API) are modelled as environment
records carrying each call's outcome; `time.Now()` is a `now : Int` parameter.
-/

namespace FeishuBot

/-- Association-list lookup, modelling Go `m[k]` (presence-aware form). -/
def lookupKV : List (String × String) → String → Option String
  | [], _ => none
  | (k0, v0) :: rest, k => if k0 = k then some v0 else lookupKV rest k

/-- Association-list update, modelling Go `m[k] = v`. -/
def setKV : List (String × String) → String → String → List (String × String)
  | [], k, v => [(k, v)]
  | (k0, v0) :: rest, k, v =>
      if k0 = k then (k, v) :: rest else (k0, v0) :: setKV rest k v

theorem lookupKV_setKV (m : List (String × String)) (k v k' : String) :
    lookupKV (setKV m k v) k' = if k = k' then some v else lookupKV m k' := by
  induction m with
  | nil => simp [setKV, lookupKV]
  | cons hd tl ih =>
      obtain ⟨k0, v0⟩ := hd
      by_cases h0 : k0 = k
      · subst h0
        by_cases h1 : k0 = k'
        · subst h1
          simp [setKV, lookupKV]
        · simp [setKV, lookupKV, h1]
      · by_cases h1 : k0 = k'
        · subst h1
          have hk : ¬ k = k0 := fun he => h0 he.symm
          simp [setKV, lookupKV, h0, hk]
        · simp [setKV, lookupKV, h0, h1, ih]

/-- Message models `models.Message` (role, content, unix timestamp). -/
structure Message where
  Role : String
  Content : String
  Timestamp : Int
deriving Repr, DecidableEq

/-- FileInfo models `models.FileInfo`. -/
structure FileInfo where
  MessageID : String
  FileKey : String
  FileName : String
deriving Repr, DecidableEq

/-- FieldDef models `models.FieldDef` (key, bilingual name, short name). -/
structure FieldDef where
  Key : String
  Name : String
  ShortName : String
deriving Repr, DecidableEq

/-- ModeUnknown models `models.ModeUnknown` (the empty string). -/
def ModeUnknown : String := ""

/-- ModeIssue models `models.ModeIssue`. -/
def ModeIssue : String := "issue"

/-- ModeSuggestion models `models.ModeSuggestion`. -/
def ModeSuggestion : String := "suggestion"

/-- RequiredFields models `models.RequiredFields` (10 required fields). -/
def RequiredFields : List FieldDef :=
  [ ⟨"issue", "问题描述 / Issue Description", "问题描述"⟩,
    ⟨"occur_time", "发生时间 / Time of Occurrence", "发生时间"⟩,
    ⟨"reproducible", "是否必现 / Reproducible?", "是否必现"⟩,
    ⟨"app_version", "应用版本 / App Version", "应用版本"⟩,
    ⟨"glasses_version", "眼镜版本 / Glasses Firmware", "眼镜版本"⟩,
    ⟨"glasses_sn", "眼镜SN号 / Glasses SN", "眼镜SN号"⟩,
    ⟨"ring_version", "戒指版本 / Ring Firmware", "戒指版本"⟩,
    ⟨"ring_sn", "戒指SN号 / Ring SN", "戒指SN号"⟩,
    ⟨"phone_model", "手机型号 / Phone Model", "手机型号"⟩,
    ⟨"phone_os", "手机系统版本 / Phone OS Version", "手机系统版本"⟩ ]

/-- OptionalFields models `models.OptionalFields`. -/
def OptionalFields : List FieldDef :=
  [ ⟨"vpn", "是否使用VPN / Using VPN?", "是否使用VPN"⟩ ]

/-- Conversation models `models.Conversation`; `CollectedInfo = none` models a
nil Go map. -/
structure Conversation where
  ChatID : String
  SenderID : String
  SenderName : String
  Messages : List Message
  Mode : String
  CollectedInfo : Option (List (String × String))
  Files : List FileInfo
  SuggestionText : String
  CreatedAt : Int
  UpdatedAt : Int
deriving Repr, DecidableEq

/-- AddMessage models `(*Conversation).AddMessage`. -/
def Conversation.AddMessage (c : Conversation) (role content : String)
    (now : Int) : Conversation :=
  { c with Messages := c.Messages ++ [⟨role, content, now⟩], UpdatedAt := now }

/-- SetCollectedInfo models `(*Conversation).SetCollectedInfo` (allocates the
map when nil, then assigns). -/
def Conversation.SetCollectedInfo (c : Conversation) (key value : String)
    (now : Int) : Conversation :=
  { c with CollectedInfo := some (setKV (c.CollectedInfo.getD []) key value),
           UpdatedAt := now }

/-- AddFile models `(*Conversation).AddFile`. -/
def Conversation.AddFile (c : Conversation) (f : FileInfo)
    (now : Int) : Conversation :=
  { c with Files := c.Files ++ [f], UpdatedAt := now }

/-- HasFiles models `(*Conversation).HasFiles`. -/
def Conversation.HasFiles (c : Conversation) : Bool :=
  !c.Files.isEmpty

/-- IsInfoComplete models `(*Conversation).IsInfoComplete`: nil map means
false; otherwise every required key must be present with a non-empty value. -/
def Conversation.IsInfoComplete (c : Conversation) : Bool :=
  match c.CollectedInfo with
  | none => false
  | some m =>
      RequiredFields.all fun field =>
        match lookupKV m field.Key with
        | none => false
        | some v => !(v == "")

/-- GetMissingFields models `(*Conversation).GetMissingFields` (display names
of required fields that are absent or empty, in schema order). -/
def Conversation.GetMissingFields (c : Conversation) : List String :=
  RequiredFields.foldl
    (fun missing field =>
      match c.CollectedInfo with
      | none => missing ++ [field.Name]
      | some m =>
          match lookupKV m field.Key with
          | none => missing ++ [field.Name]
          | some v => if v = "" then missing ++ [field.Name] else missing)
    []

/-- ExtractionResult models `llm.ExtractionResult`. -/
structure ExtractionResult where
  Issue : String
  OccurTime : String
  Reproducible : String
  VPN : String
  AppVersion : String
  GlassesVersion : String
  GlassesSN : String
  RingVersion : String
  RingSN : String
  PhoneModel : String
  PhoneOS : String
deriving Repr, DecidableEq

/-- AllFieldKeys models `llm.AllFieldKeys`. -/
def AllFieldKeys : List String :=
  [ "issue", "occur_time", "reproducible", "vpn",
    "app_version", "glasses_version", "glasses_sn",
    "ring_version", "ring_sn", "phone_model", "phone_os" ]

/-- fieldDisplayList is the entry list of the Go map `llm.FieldDisplayNames`. -/
def fieldDisplayList : List (String × String) :=
  [ ("issue", "问题描述 / Issue Description"),
    ("occur_time", "发生时间 / Time of Occurrence"),
    ("reproducible", "是否必现 / Reproducible?"),
    ("vpn", "是否使用VPN / Using VPN?"),
    ("app_version", "应用版本 / App Version"),
    ("glasses_version", "眼镜版本 / Glasses Firmware"),
    ("glasses_sn", "眼镜SN号 / Glasses SN"),
    ("ring_version", "戒指版本 / Ring Firmware"),
    ("ring_sn", "戒指SN号 / Ring SN"),
    ("phone_model", "手机型号 / Phone Model"),
    ("phone_os", "手机系统版本 / Phone OS Version") ]

/-- FieldDisplayNames models lookup in the Go map `llm.FieldDisplayNames`
(zero value for an absent key). -/
def FieldDisplayNames (key : String) : String :=
  (lookupKV fieldDisplayList key).getD ""

/-- ToFieldMap models `(*ExtractionResult).ToFieldMap`. -/
def ExtractionResult.ToFieldMap (r : ExtractionResult) :
    List (String × String) :=
  [ ("issue", r.Issue),
    ("occur_time", r.OccurTime),
    ("reproducible", r.Reproducible),
    ("vpn", r.VPN),
    ("app_version", r.AppVersion),
    ("glasses_version", r.GlassesVersion),
    ("glasses_sn", r.GlassesSN),
    ("ring_version", r.RingVersion),
    ("ring_sn", r.RingSN),
    ("phone_model", r.PhoneModel),
    ("phone_os", r.PhoneOS) ]

/-- emptyExtraction models `&llm.ExtractionResult end` — the all-empty result
substituted on extractor failure. -/
def emptyExtraction : ExtractionResult :=
  ⟨"", "", "", "", "", "", "", "", "", "", ""⟩

/-- isSpaceGo models `unicode.IsSpace` on the whitespace characters relevant
here (Latin-1 range, as in Go's fast path). -/
def isSpaceGo (c : Char) : Bool :=
  c == ' ' || c == '\t' || c == '\n' || c == '\x0b' || c == '\x0c' ||
  c == '\r' || c == '\u0085' || c == '\u00A0'

/-- trimSpaceGo models Go `strings.TrimSpace` (drop whitespace from both
ends), over the string's character list. -/
def trimSpaceGo (s : String) : String :=
  ⟨((s.data.dropWhile isSpaceGo).reverse.dropWhile isSpaceGo).reverse⟩

/-- toLowerGo models Go `strings.ToLower` character-wise (ASCII lowering;
the non-ASCII characters appearing in this program are caseless). -/
def toLowerGo (s : String) : String :=
  ⟨s.data.map Char.toLower⟩

/-- hasPrefixGo models Go `strings.HasPrefix`, over character lists. -/
def hasPrefixGo (s p : String) : Bool :=
  p.data.isPrefixOf s.data

/-- trimPrefixGo models Go `strings.TrimPrefix` on a known-present prefix
(drop that many characters). -/
def trimPrefixGo (s p : String) : String :=
  ⟨s.data.drop p.data.length⟩

/-- getCollectedInfoSnapshot models `(*Manager).getCollectedInfoSnapshot`
(copy of the collected map; nil becomes empty). -/
def getCollectedInfoSnapshot (conv : Conversation) : List (String × String) :=
  conv.CollectedInfo.getD []

/-- mergeStep is one iteration of the loop body of
`(*Manager).mergeExtractedInfo` for a single schema key. -/
def mergeStep (r : ExtractionResult) (oldInfo : List (String × String))
    (now : Int) (acc : Conversation × List String) (key : String) :
    Conversation × List String :=
  let newValue := (lookupKV r.ToFieldMap key).getD ""
  if newValue = "" then acc
  else
    let oldVal := (lookupKV oldInfo key).getD ""
    if oldVal = newValue then acc
    else
      let name := FieldDisplayNames key
      let c := acc.1.SetCollectedInfo key newValue now
      if oldVal = "" then (c, acc.2 ++ [name ++ ": " ++ newValue])
      else (c, acc.2 ++ [name ++ ": " ++ newValue ++ " (updated)"])

/-- mergeExtractedInfo models `(*Manager).mergeExtractedInfo`: fold the merge
step over `AllFieldKeys`, returning the updated conversation and the list of
human-readable change notes. -/
def mergeExtractedInfo (conv : Conversation) (r : ExtractionResult)
    (oldInfo : List (String × String)) (now : Int) :
    Conversation × List String :=
  List.foldl (mergeStep r oldInfo now) (conv, []) AllFieldKeys

/-- suggestionTriggers is the literal list inside
`conversation.isSuggestion`. -/
def suggestionTriggers : List String :=
  [ "反馈：", "反馈:", "建议：", "建议:",
    "feedback：", "feedback:", "suggestion：", "suggestion:" ]

/-- isSuggestion models `conversation.isSuggestion` (lower-case the text, then
test the recognized bilingual triggers as leading substrings). -/
def isSuggestion (text : String) : Bool :=
  let lower := toLowerGo text
  suggestionTriggers.any fun p => hasPrefixGo lower p

/-- EscalateMarker models the constant `conversation.EscalatePrefix`
(the sentinel `"ESCALATE:"`). -/
def EscalateMarker : String := "ESCALATE:"

/-- EngineEnv carries the outcomes of the external calls made during one
`ProcessMessage` turn: whether an LLM client is configured, the extractor
call's outcome, whether `SaveConversation` succeeds, and the clock. -/
structure EngineEnv where
  llmPresent : Bool
  extractOutcome : Except String ExtractionResult
  saveOk : Bool
  now : Int

/-- ProcessOutcome is the successful result of one `ProcessMessage` turn:
the saved conversation, the reply text, and whether the field extractor was
invoked on this turn. -/
structure ProcessOutcome where
  conv : Conversation
  response : String
  extractorCalled : Bool
deriving Repr, DecidableEq

/-- suggestionAck is the acknowledgment text built by
`(*Manager).handleSuggestion`. -/
def suggestionAck (content : String) : String :=
  "已收到您的反馈/建议 / Your feedback has been received:\n\n" ++ content ++
    "\n\n正在为您提交到技术支持团队... / Submitting to the support team..."

/-- handleSuggestion models `(*Manager).handleSuggestion`: set Suggestion
mode, record the suggestion text, append both messages, save, and return the
sentinel-prefixed acknowledgment. -/
def handleSuggestion (env : EngineEnv) (conv : Conversation)
    (content : String) : Except String ProcessOutcome :=
  let conv1 := { conv with Mode := ModeSuggestion, SuggestionText := content }
  let conv2 := conv1.AddMessage "user" content env.now
  let userMsg := suggestionAck content
  let conv3 := conv2.AddMessage "assistant" userMsg env.now
  if env.saveOk then .ok ⟨conv3, EscalateMarker ++ userMsg, false⟩
  else .error "failed to save conversation"

/-- listLines renders a list of display names as `"  - name\n"` lines. -/
def listLines (names : List String) : String :=
  String.join (names.map fun name => "  - " ++ name ++ "\n")

/-- welcomeBlock is the first-turn welcome branch of
`(*Manager).buildSmartResponse` (enumerates the missing required fields, then
the optional fields, then the suggestion hint). -/
def welcomeBlock (missing : List String) : String :=
  "您好，我是技术支持助手。/ Hi, I'm the tech support assistant.\n\n" ++
  "📋 反馈问题，请提供以下信息 / To report an issue, please provide:\n" ++
  listLines missing ++
  String.join (OptionalFields.map fun field =>
    "  - " ++ field.Name ++ "（可选 / optional）\n") ++
  "\n💡 反馈建议，请直接发送 / To submit a suggestion, send:\n" ++
  "  反馈：您的内容 / feedback: your content\n" ++
  "  建议：您的内容 / suggestion: your content\n" ++
  "\n您可以一次性告诉我，也可以分多次发送。\nYou can provide all info at once or send it in multiple messages.\n" ++
  "如有日志文件，可直接发送附件。\nIf you have log files, feel free to send them as attachments."

/-- notedBlock is the "已记录 / Noted" section of
`(*Manager).buildSmartResponse` (empty when nothing new was collected). -/
def notedBlock (newInfoParts : List String) : String :=
  if newInfoParts.length > 0 then
    "已记录 / Noted:\n" ++
      String.join (newInfoParts.map fun part => "  ✅ " ++ part ++ "\n") ++
      "\n"
  else ""

/-- askMissingBlock is the missing-field section of
`(*Manager).buildSmartResponse` (empty when nothing is missing). -/
def askMissingBlock (newInfoParts missing : List String) : String :=
  if missing.length > 0 then
    (if newInfoParts.length = 0 then
      "请继续提供以下信息 / Please provide the following info:\n"
     else "还需要以下信息 / Still need:\n") ++
    listLines missing ++
    "\n回复「提交」或 \"submit\" 可直接提交当前信息。\nReply \"submit\" to submit current info directly."
  else ""

/-- buildSmartResponse models `(*Manager).buildSmartResponse`. -/
def buildSmartResponse (newInfoParts : List String)
    (conv : Conversation) : String :=
  let missing := conv.GetMissingFields
  if newInfoParts.length = 0 && conv.Messages.length ≤ 2 then
    welcomeBlock missing
  else
    notedBlock newInfoParts ++ askMissingBlock newInfoParts missing

/-- GetUserSummary models `(*Conversation).GetUserSummary`. -/
def Conversation.GetUserSummary (c : Conversation) : String :=
  (if c.Mode = ModeSuggestion then
    "- 建议内容 / Suggestion: " ++ c.SuggestionText ++ "\n"
   else
    String.join ((RequiredFields ++ OptionalFields).map fun field =>
      match lookupKV (c.CollectedInfo.getD []) field.Key with
      | none => ""
      | some v => if v = "" then ""
                  else "- " ++ field.Name ++ ": " ++ v ++ "\n")) ++
  (if c.HasFiles then "- 日志文件 / Log files: 已上传 / Uploaded\n" else "")

/-- buildEscalateResponse models `(*Manager).buildEscalateResponse`: build the
completion (or suggestion) header plus the user summary, append an assistant
message, save, and return with the sentinel marker. The `called` argument
threads through whether the extractor ran earlier in the turn. -/
def buildEscalateResponse (env : EngineEnv) (conv : Conversation)
    (called : Bool) : Except String ProcessOutcome :=
  let header :=
    if conv.Mode = ModeSuggestion then
      "已收到您的反馈/建议，正在提交...\nYour feedback has been received, submitting...\n\n"
    else "信息收集完毕！/ All info collected!\n\n"
  let userMsg := header ++ conv.GetUserSummary ++
    "\n正在为您提交到技术支持团队... / Submitting to the support team..."
  let conv1 := conv.AddMessage "assistant" userMsg env.now
  if env.saveOk then .ok ⟨conv1, EscalateMarker ++ userMsg, called⟩
  else .error "failed to save conversation"

/-- uploadedFileHeader is the Go literal `"上传了文件: "` used to recover a
file name from the synthetic content of a file message. -/
def uploadedFileHeader : String := "上传了文件: "

/-- handleFileMessage models `(*Manager).handleFileMessage`. -/
def handleFileMessage (env : EngineEnv) (conv : Conversation)
    (content fileKey messageID : String) : Except String ProcessOutcome :=
  let conv1 :=
    if fileKey ≠ "" ∧ messageID ≠ "" then
      let fileName :=
        if hasPrefixGo content uploadedFileHeader then
          trimPrefixGo content uploadedFileHeader
        else "attachment"
      conv.AddFile ⟨messageID, fileKey, fileName⟩ env.now
    else conv
  let conv2 := conv1.AddMessage "user" content env.now
  let conv3 := if conv2.Mode = ModeUnknown then { conv2 with Mode := ModeIssue }
               else conv2
  if conv3.IsInfoComplete then
    let conv4 := conv3.AddMessage "assistant"
      "收到文件。信息已完整，正在为您提交...\nFile received. All info collected, submitting..."
      env.now
    if env.saveOk then buildEscalateResponse env conv4 false
    else .error "failed to save conversation"
  else
    let missing := conv3.GetMissingFields
    let response :=
      "收到文件，已记录。/ File received.\n\n" ++
      "还需要以下信息 / Still need the following info:\n" ++
      String.join (missing.map fun name => "- " ++ name ++ "\n") ++
      "\n回复「转人工」或 \"submit\" 可直接提交当前信息。\nReply \"submit\" to submit current info directly."
    let conv4 := conv3.AddMessage "assistant" response env.now
    if env.saveOk then .ok ⟨conv4, response, false⟩
    else .error "failed to save conversation"

/-- effectiveExtraction is the extraction result actually used by
`ProcessMessage` (the all-empty result when no LLM client is configured or
when the extractor errors — fail-open) together with whether the extractor
was invoked. -/
def effectiveExtraction (env : EngineEnv) : ExtractionResult × Bool :=
  if env.llmPresent then
    match env.extractOutcome with
    | .ok r => (r, true)
    | .error _ => (emptyExtraction, true)
  else (emptyExtraction, false)

/-- ProcessMessage models `(*Manager).ProcessMessage` from the point where the
conversation has been fetched: file path, empty-text no-op, suggestion
detection, then the issue-mode collection loop (append user message, snapshot,
extract, merge, completion check, reply, save). -/
def ProcessMessage (env : EngineEnv) (conv0 : Conversation)
    (content msgType fileKey messageID : String) :
    Except String ProcessOutcome :=
  if msgType ≠ "text" then
    handleFileMessage env conv0 content fileKey messageID
  else
    let trimmed := trimSpaceGo content
    if trimmed = "" then .ok ⟨conv0, "", false⟩
    else if conv0.Mode = ModeUnknown ∧ isSuggestion trimmed then
      handleSuggestion env conv0 trimmed
    else if conv0.Mode = ModeSuggestion then
      handleSuggestion env conv0 trimmed
    else
      let conv1 := { conv0 with Mode := ModeIssue }
      let conv2 := conv1.AddMessage "user" content env.now
      let collectedInfo := getCollectedInfoSnapshot conv2
      let re := effectiveExtraction env
      let merged := mergeExtractedInfo conv2 re.1 collectedInfo env.now
      if merged.1.IsInfoComplete then
        buildEscalateResponse env merged.1 re.2
      else
        let response := buildSmartResponse merged.2 merged.1
        let conv3 := merged.1.AddMessage "assistant" response env.now
        if env.saveOk then .ok ⟨conv3, response, re.2⟩
        else .error "failed to save conversation"

/-- TryMarkMessageProcessed models `(*Store).TryMarkMessageProcessed` (Redis
SETNX on the message ID): returns whether the ID was newly claimed, plus the
dedup store afterwards. The transport-error case is injected separately by
`HandlerEnv.dedupErr`. -/
def TryMarkMessageProcessed (store : List String) (messageID : String) :
    Bool × List String :=
  if store.contains messageID then (false, store)
  else (true, messageID :: store)

/-- HandlerEnv carries the outcomes of the external calls made by
`handlePrivateMessage`: whether the dedup store is configured, whether the
SETNX call fails at the transport level, and the delegated message handler's
outcome. -/
structure HandlerEnv where
  storePresent : Bool
  dedupErr : Bool
  handlerOutcome : Option String

/-- HandlerResult is the observable outcome of one `handlePrivateMessage`
call: the error returned to the dispatcher, whether the delegated message
handler (the only code that mutates session state) was invoked, and the dedup
store afterwards. -/
structure HandlerResult where
  err : Option String
  handlerCalled : Bool
  store : List String
deriving Repr, DecidableEq

/-- EventMessage carries the fields of an inbound event consumed by
`handlePrivateMessage`. -/
structure EventMessage where
  chatID : String
  senderID : String
  messageID : String
  chatType : String
  msgType : String
deriving Repr, DecidableEq

/-- dispatchMessage is the tail of `handlePrivateMessage` after the dedup
claim: the channel-type filter, then delegation to
`messageHandler.HandleMessage`. -/
def dispatchMessage (env : HandlerEnv) (store : List String)
    (msg : EventMessage) : HandlerResult :=
  if msg.chatType ≠ "p2p" then ⟨none, false, store⟩
  else ⟨env.handlerOutcome, true, store⟩

/-- handlePrivateMessage models `(*EventHandlers).handlePrivateMessage`:
atomic dedup claim first (dropping the event on a transport error or a
duplicate), then the p2p channel-type filter, then delegation. -/
def handlePrivateMessage (env : HandlerEnv) (store : List String)
    (msg : EventMessage) : HandlerResult :=
  if msg.messageID ≠ "" ∧ env.storePresent then
    if env.dedupErr then ⟨none, false, store⟩
    else
      let claim := TryMarkMessageProcessed store msg.messageID
      if !claim.1 then ⟨none, false, claim.2⟩
      else dispatchMessage env claim.2 msg
  else dispatchMessage env store msg

/-- EscEnv carries the outcomes of the Feishu API calls made by
`HandleEscalation`: the invite, the summary post (returning the thread-root
message ID), each file's download, the re-upload, the in-thread reply, and
the user notification. -/
structure EscEnv where
  inviteOutcome : Except String Unit
  postOutcome : Except String String
  downloadOutcome : FileInfo → Except String (List Nat × String)
  uploadOutcome : String → List Nat → Except String String
  replyOutcome : String → String → Except String Unit
  notifyOutcome : Except String Unit

/-- forwardFileInThread models `(*EscalationHandler).forwardFileInThread`:
download from the origin message, pick a file name, re-upload, reply in the
thread; any step's error is returned. -/
def forwardFileInThread (env : EscEnv) (rootMsgID : String)
    (f : FileInfo) : Except String Unit :=
  match env.downloadOutcome f with
  | .error e => .error e
  | .ok (data, downloadedName) =>
      let fileName :=
        if downloadedName ≠ "" then downloadedName
        else if f.FileName ≠ "" then f.FileName
        else "attachment"
      match env.uploadOutcome fileName data with
      | .error e => .error e
      | .ok newFileKey => env.replyOutcome rootMsgID newFileKey

/-- relayOk is the predicate "this file's relay succeeds". -/
def relayOk (env : EscEnv) (rootMsgID : String) (f : FileInfo) : Bool :=
  match forwardFileInThread env rootMsgID f with
  | .ok _ => true
  | .error _ => false

/-- relayFiles models the per-file loop of `HandleEscalation`: forward each
file in arrival order, catching each failure and continuing; the result is
the list of files successfully relayed, in order. -/
def relayFiles (env : EscEnv) (rootMsgID : String) :
    List FileInfo → List FileInfo
  | [] => []
  | f :: fs =>
      match forwardFileInThread env rootMsgID f with
      | .ok _ => f :: relayFiles env rootMsgID fs
      | .error _ => relayFiles env rootMsgID fs

/-- EscResult is the observable outcome of one `HandleEscalation` run: the
error returned to the caller, whether the invite step ran, whether the
summary post succeeded, the relayed files (in order), and whether the user
notification step was reached. -/
structure EscResult where
  err : Option String
  invited : Bool
  summaryPosted : Bool
  relayed : List FileInfo
  notified : Bool

/-- HandleEscalation models `(*EscalationHandler).HandleEscalation`:
best-effort invite, mandatory summary post (its failure aborts), per-file
fault-isolated relay, best-effort user notification. -/
def HandleEscalation (env : EscEnv) (conv : Conversation) : EscResult :=
  let invited := conv.SenderID != ""
  match env.postOutcome with
  | .error e => ⟨some e, invited, false, [], false⟩
  | .ok rootMsgID =>
      let relayed :=
        if conv.HasFiles ∧ rootMsgID ≠ "" then
          relayFiles env rootMsgID conv.Files
        else []
      ⟨none, invited, true, relayed, true⟩

/-! ### Lemmas about the merge algorithm -/

/-- mergeStep_cases: one merge step either leaves the accumulator unchanged
(extracted value empty, or equal to the snapshot value) or writes the
non-empty extracted value at its own key and appends one change note. -/
theorem mergeStep_cases (r : ExtractionResult) (old : List (String × String))
    (now : Int) (acc : Conversation × List String) (k : String) :
    (mergeStep r old now acc k = acc ∧
      ((lookupKV r.ToFieldMap k).getD "" = "" ∨
       (lookupKV old k).getD "" = (lookupKV r.ToFieldMap k).getD "")) ∨
    ((lookupKV r.ToFieldMap k).getD "" ≠ "" ∧
      (mergeStep r old now acc k).1.CollectedInfo =
        some (setKV (acc.1.CollectedInfo.getD []) k
          ((lookupKV r.ToFieldMap k).getD "")) ∧
      (mergeStep r old now acc k).2.length = acc.2.length + 1) := by
  by_cases h1 : (lookupKV r.ToFieldMap k).getD "" = ""
  · left
    exact ⟨by simp [mergeStep, h1], Or.inl h1⟩
  · by_cases h2 : (lookupKV old k).getD "" = (lookupKV r.ToFieldMap k).getD ""
    · left
      exact ⟨by simp [mergeStep, h1, h2], Or.inr h2⟩
    · right
      refine ⟨h1, ?_, ?_⟩ <;>
        by_cases h3 : (lookupKV old k).getD "" = ""
      · have h4 : ¬ ("" = (lookupKV r.ToFieldMap k).getD "") :=
          fun he => h2 (h3.trans he)
        simp [mergeStep, h1, h2, h3, h4, Conversation.SetCollectedInfo]
      · simp [mergeStep, h1, h2, h3, Conversation.SetCollectedInfo]
      · have h4 : ¬ ("" = (lookupKV r.ToFieldMap k).getD "") :=
          fun he => h2 (h3.trans he)
        simp [mergeStep, h1, h2, h3, h4, Conversation.SetCollectedInfo]
      · simp [mergeStep, h1, h2, h3, Conversation.SetCollectedInfo]

/-- mergeStep_noop: a step whose extracted value is empty or unchanged does
nothing. -/
theorem mergeStep_noop (r : ExtractionResult) (old : List (String × String))
    (now : Int) (acc : Conversation × List String) (k : String)
    (h : (lookupKV r.ToFieldMap k).getD "" = "" ∨
         (lookupKV old k).getD "" = (lookupKV r.ToFieldMap k).getD "") :
    mergeStep r old now acc k = acc := by
  rcases h with h | h
  · simp [mergeStep, h]
  · by_cases h1 : (lookupKV r.ToFieldMap k).getD "" = ""
    · simp [mergeStep, h1]
    · simp [mergeStep, h1, h]

/-- mergeFold_noop: folding merge steps whose keys are all stable (empty or
unchanged extraction) leaves the accumulator untouched. -/
theorem mergeFold_noop (r : ExtractionResult) (old : List (String × String))
    (now : Int) (ks : List String) (acc : Conversation × List String)
    (h : ∀ k ∈ ks, (lookupKV r.ToFieldMap k).getD "" = "" ∨
         (lookupKV old k).getD "" = (lookupKV r.ToFieldMap k).getD "") :
    List.foldl (mergeStep r old now) acc ks = acc := by
  induction ks generalizing acc with
  | nil => rfl
  | cons k ks ih =>
      have hk := h k (List.mem_cons_self k ks)
      rw [List.foldl_cons, mergeStep_noop r old now acc k hk]
      exact ih acc (fun k0 hk0 => h k0 (List.mem_cons_of_mem k hk0))

/-- mergeStep_lookup_preserved: a step never changes the stored binding of a
key other than its own, nor of a key whose extracted value is empty. -/
theorem mergeStep_lookup_preserved (r : ExtractionResult)
    (old : List (String × String)) (now : Int)
    (acc : Conversation × List String) (k k0 : String)
    (h : k ≠ k0 ∨ (lookupKV r.ToFieldMap k0).getD "" = "") :
    lookupKV ((mergeStep r old now acc k).1.CollectedInfo.getD []) k0 =
    lookupKV (acc.1.CollectedInfo.getD []) k0 := by
  rcases mergeStep_cases r old now acc k with ⟨heq, _⟩ | ⟨hne, hcoll, _⟩
  · rw [heq]
  · rw [hcoll]
    simp only [Option.getD_some]
    rw [lookupKV_setKV]
    have hkk0 : ¬ k = k0 := by
      rcases h with h | h
      · exact h
      · intro he
        exact hne (he ▸ h)
    rw [if_neg hkk0]

/-- mergeFold_lookup_empty: the whole merge leaves untouched the binding of
any key whose extracted value is empty. -/
theorem mergeFold_lookup_empty (r : ExtractionResult)
    (old : List (String × String)) (now : Int) (ks : List String)
    (acc : Conversation × List String) (k0 : String)
    (h : (lookupKV r.ToFieldMap k0).getD "" = "") :
    lookupKV ((List.foldl (mergeStep r old now) acc ks).1.CollectedInfo.getD [])
        k0 =
    lookupKV (acc.1.CollectedInfo.getD []) k0 := by
  induction ks generalizing acc with
  | nil => rfl
  | cons k ks ih =>
      rw [List.foldl_cons, ih (mergeStep r old now acc k),
          mergeStep_lookup_preserved r old now acc k k0 (Or.inr h)]

/-- mergeStep_nonempty: a step never erases a non-empty stored binding. -/
theorem mergeStep_nonempty (r : ExtractionResult)
    (old : List (String × String)) (now : Int)
    (acc : Conversation × List String) (k k0 : String)
    (h : (lookupKV (acc.1.CollectedInfo.getD []) k0).getD "" ≠ "") :
    (lookupKV ((mergeStep r old now acc k).1.CollectedInfo.getD []) k0).getD ""
      ≠ "" := by
  rcases mergeStep_cases r old now acc k with ⟨heq, _⟩ | ⟨hne, hcoll, _⟩
  · rw [heq]
    exact h
  · rw [hcoll]
    simp only [Option.getD_some]
    rw [lookupKV_setKV]
    by_cases hkk0 : k = k0
    · rw [if_pos hkk0]
      simpa using hne
    · rw [if_neg hkk0]
      exact h

/-- mergeFold_nonempty: the whole merge never erases a non-empty stored
binding. -/
theorem mergeFold_nonempty (r : ExtractionResult)
    (old : List (String × String)) (now : Int) (ks : List String)
    (acc : Conversation × List String) (k0 : String)
    (h : (lookupKV (acc.1.CollectedInfo.getD []) k0).getD "" ≠ "") :
    (lookupKV
      ((List.foldl (mergeStep r old now) acc ks).1.CollectedInfo.getD []) k0
      ).getD "" ≠ "" := by
  induction ks generalizing acc with
  | nil => exact h
  | cons k ks ih =>
      rw [List.foldl_cons]
      exact ih (mergeStep r old now acc k)
        (mergeStep_nonempty r old now acc k k0 h)

/-- mergeStep_isSome: a step keeps the collected map allocated. -/
theorem mergeStep_isSome (r : ExtractionResult)
    (old : List (String × String)) (now : Int)
    (acc : Conversation × List String) (k : String)
    (h : acc.1.CollectedInfo.isSome = true) :
    (mergeStep r old now acc k).1.CollectedInfo.isSome = true := by
  rcases mergeStep_cases r old now acc k with ⟨heq, _⟩ | ⟨_, hcoll, _⟩
  · rw [heq]
    exact h
  · rw [hcoll]
    rfl

/-- mergeFold_isSome: the whole merge keeps the collected map allocated. -/
theorem mergeFold_isSome (r : ExtractionResult)
    (old : List (String × String)) (now : Int) (ks : List String)
    (acc : Conversation × List String)
    (h : acc.1.CollectedInfo.isSome = true) :
    (List.foldl (mergeStep r old now) acc ks).1.CollectedInfo.isSome = true := by
  induction ks generalizing acc with
  | nil => exact h
  | cons k ks ih =>
      rw [List.foldl_cons]
      exact ih (mergeStep r old now acc k) (mergeStep_isSome r old now acc k h)

/-- mergeInv holds of intermediate merge states: each stored binding is still
the snapshot's value, or has been set to the (non-empty) extracted value. -/
def mergeInv (r : ExtractionResult) (old : List (String × String))
    (c : Conversation) : Prop :=
  ∀ k0, (lookupKV (c.CollectedInfo.getD []) k0).getD "" =
          (lookupKV old k0).getD ""
      ∨ ((lookupKV (c.CollectedInfo.getD []) k0).getD "" =
           (lookupKV r.ToFieldMap k0).getD ""
         ∧ (lookupKV r.ToFieldMap k0).getD "" ≠ "")

/-- keyStable says a key's stored binding already agrees with its extracted
value (or the extracted value is empty), so a merge step at it is a no-op. -/
def keyStable (r : ExtractionResult) (c : Conversation) (k : String) : Prop :=
  (lookupKV r.ToFieldMap k).getD "" = "" ∨
  (lookupKV (c.CollectedInfo.getD []) k).getD "" =
    (lookupKV r.ToFieldMap k).getD ""

/-- mergeStep_mergeInv: one merge step preserves `mergeInv`. -/
theorem mergeStep_mergeInv (r : ExtractionResult)
    (old : List (String × String)) (now : Int)
    (acc : Conversation × List String) (k : String)
    (h : mergeInv r old acc.1) :
    mergeInv r old (mergeStep r old now acc k).1 := by
  rcases mergeStep_cases r old now acc k with ⟨heq, _⟩ | ⟨hne, hcoll, _⟩
  · rw [heq]
    exact h
  · intro k0
    rw [hcoll]
    simp only [Option.getD_some]
    rw [lookupKV_setKV]
    by_cases hkk0 : k = k0
    · subst hkk0
      rw [if_pos rfl]
      exact Or.inr ⟨rfl, hne⟩
    · rw [if_neg hkk0]
      exact h k0

/-- mergeStep_keyStable: one merge step preserves `keyStable` at any key. -/
theorem mergeStep_keyStable (r : ExtractionResult)
    (old : List (String × String)) (now : Int)
    (acc : Conversation × List String) (k k0 : String)
    (h : keyStable r acc.1 k0) :
    keyStable r (mergeStep r old now acc k).1 k0 := by
  rcases mergeStep_cases r old now acc k with ⟨heq, _⟩ | ⟨hne, hcoll, _⟩
  · rw [heq]
    exact h
  · unfold keyStable at h ⊢
    rw [hcoll]
    simp only [Option.getD_some]
    rw [lookupKV_setKV]
    by_cases hkk0 : k = k0
    · subst hkk0
      simp
    · rw [if_neg hkk0]
      exact h

/-- mergeStep_establishes: a merge step makes its own key stable, provided
the accumulator still satisfies `mergeInv` for the snapshot it consults. -/
theorem mergeStep_establishes (r : ExtractionResult)
    (old : List (String × String)) (now : Int)
    (acc : Conversation × List String) (k : String)
    (h : mergeInv r old acc.1) :
    keyStable r (mergeStep r old now acc k).1 k := by
  rcases mergeStep_cases r old now acc k with ⟨heq, hst⟩ | ⟨hne, hcoll, _⟩
  · rw [heq]
    rcases hst with hst | hst
    · exact Or.inl hst
    · rcases h k with hb | hb
      · exact Or.inr (hb.trans hst)
      · exact Or.inr hb.1
  · unfold keyStable
    rw [hcoll]
    simp [lookupKV_setKV]

/-- mergeFold_mergeInv: the merge fold preserves `mergeInv`. -/
theorem mergeFold_mergeInv (r : ExtractionResult)
    (old : List (String × String)) (now : Int) (ks : List String)
    (acc : Conversation × List String)
    (h : mergeInv r old acc.1) :
    mergeInv r old (List.foldl (mergeStep r old now) acc ks).1 := by
  induction ks generalizing acc with
  | nil => exact h
  | cons k ks ih =>
      rw [List.foldl_cons]
      exact ih (mergeStep r old now acc k) (mergeStep_mergeInv r old now acc k h)

/-- mergeFold_keyStable: the merge fold preserves `keyStable`. -/
theorem mergeFold_keyStable (r : ExtractionResult)
    (old : List (String × String)) (now : Int) (ks : List String)
    (acc : Conversation × List String) (k0 : String)
    (h : keyStable r acc.1 k0) :
    keyStable r (List.foldl (mergeStep r old now) acc ks).1 k0 := by
  induction ks generalizing acc with
  | nil => exact h
  | cons k ks ih =>
      rw [List.foldl_cons]
      exact ih (mergeStep r old now acc k)
        (mergeStep_keyStable r old now acc k k0 h)

/-- mergeFold_establishes: after the merge fold, every processed key is
stable. -/
theorem mergeFold_establishes (r : ExtractionResult)
    (old : List (String × String)) (now : Int) (ks : List String)
    (acc : Conversation × List String) (k : String)
    (hk : k ∈ ks) (h : mergeInv r old acc.1) :
    keyStable r (List.foldl (mergeStep r old now) acc ks).1 k := by
  induction ks generalizing acc with
  | nil => cases hk
  | cons k1 ks ih =>
      rw [List.foldl_cons]
      rcases List.mem_cons.mp hk with hk1 | hk1
      · subst hk1
        exact mergeFold_keyStable r old now ks (mergeStep r old now acc k) k
          (mergeStep_establishes r old now acc k h)
      · exact ih (mergeStep r old now acc k1) hk1
          (mergeStep_mergeInv r old now acc k1 h)

/-- mergeFold_parts_le: the change-note list only grows during the fold. -/
theorem mergeFold_parts_le (r : ExtractionResult)
    (old : List (String × String)) (now : Int) (ks : List String)
    (acc : Conversation × List String) :
    acc.2.length ≤ (List.foldl (mergeStep r old now) acc ks).2.length := by
  induction ks generalizing acc with
  | nil => exact Nat.le_refl _
  | cons k ks ih =>
      rw [List.foldl_cons]
      refine Nat.le_trans ?_ (ih (mergeStep r old now acc k))
      rcases mergeStep_cases r old now acc k with ⟨heq, _⟩ | ⟨_, _, hlen⟩
      · rw [heq]
      · rw [hlen]
        exact Nat.le_succ _

/-- mergeFold_parts_eq: if the fold produced no new change notes, it did not
change the accumulator at all. -/
theorem mergeFold_parts_eq (r : ExtractionResult)
    (old : List (String × String)) (now : Int) (ks : List String)
    (acc : Conversation × List String)
    (h : (List.foldl (mergeStep r old now) acc ks).2.length = acc.2.length) :
    List.foldl (mergeStep r old now) acc ks = acc := by
  induction ks generalizing acc with
  | nil => rfl
  | cons k ks ih =>
      rw [List.foldl_cons] at h ⊢
      rcases mergeStep_cases r old now acc k with ⟨heq, _⟩ | ⟨_, _, hlen⟩
      · rw [heq] at h ⊢
        exact ih acc h
      · exfalso
        have hle := mergeFold_parts_le r old now ks (mergeStep r old now acc k)
        rw [hlen] at hle
        omega

/-- merge_parts_nil: a merge that returned no change notes left the
conversation unchanged. -/
theorem merge_parts_nil (conv : Conversation) (r : ExtractionResult)
    (old : List (String × String)) (now : Int)
    (h : (mergeExtractedInfo conv r old now).2 = []) :
    (mergeExtractedInfo conv r old now).1 = conv := by
  have h0 : (mergeExtractedInfo conv r old now).2.length =
      (Prod.snd (α := Conversation) (conv, ([] : List String))).length := by
    rw [h]
  have := mergeFold_parts_eq r old now AllFieldKeys (conv, []) h0
  unfold mergeExtractedInfo
  rw [this]

/-! ### Lemmas about completion -/

/-- fieldCheck_iff: the per-field test of `IsInfoComplete` is equivalent to
"present with a non-empty value". -/
theorem fieldCheck_iff (m : List (String × String)) (k : String) :
    ((match lookupKV m k with
      | none => false
      | some v => !(v == "")) = true) ↔ (lookupKV m k).getD "" ≠ "" := by
  cases hm : lookupKV m k with
  | none => simp
  | some v => simp

/-- isInfoComplete_iff characterizes `IsInfoComplete` as: the collected map
is allocated and every required key's stored value is non-empty. -/
theorem isInfoComplete_iff (c : Conversation) :
    c.IsInfoComplete = true ↔
      (c.CollectedInfo.isSome = true ∧
       ∀ f ∈ RequiredFields,
         (lookupKV (c.CollectedInfo.getD []) f.Key).getD "" ≠ "") := by
  cases hc : c.CollectedInfo with
  | none => simp [Conversation.IsInfoComplete, hc]
  | some m =>
      simp only [Conversation.IsInfoComplete, hc, Option.isSome_some,
        Option.getD_some, true_and]
      rw [List.all_eq_true]
      constructor
      · intro h f hf
        exact (fieldCheck_iff m f.Key).mp (h f hf)
      · intro h f hf
        exact (fieldCheck_iff m f.Key).mpr (h f hf)

/-- isInfoComplete_congr: completion only reads `CollectedInfo`. -/
theorem isInfoComplete_congr (c c' : Conversation)
    (h : c.CollectedInfo = c'.CollectedInfo) :
    c.IsInfoComplete = c'.IsInfoComplete := by
  unfold Conversation.IsInfoComplete
  rw [h]

/-- getMissingFields_congr: the missing-field list only reads
`CollectedInfo`. -/
theorem getMissingFields_congr (c c' : Conversation)
    (h : c.CollectedInfo = c'.CollectedInfo) :
    c.GetMissingFields = c'.GetMissingFields := by
  unfold Conversation.GetMissingFields
  simp only [h]

/-- getMissingFields_all: with nothing collected, every required field is
missing, in schema order. -/
theorem getMissingFields_all (c : Conversation)
    (h : c.CollectedInfo.getD [] = []) :
    c.GetMissingFields = RequiredFields.map (fun f => f.Name) := by
  cases hc : c.CollectedInfo with
  | none =>
      unfold Conversation.GetMissingFields
      simp only [hc]
      rfl
  | some m =>
      have hm : m = [] := by
        rw [hc] at h
        simpa using h
      subst hm
      unfold Conversation.GetMissingFields
      simp only [hc]
      rfl

/-- merge_preserves_complete: the merge algorithm never destroys
completion. -/
theorem merge_preserves_complete (conv : Conversation) (r : ExtractionResult)
    (old : List (String × String)) (now : Int)
    (h : conv.IsInfoComplete = true) :
    (mergeExtractedInfo conv r old now).1.IsInfoComplete = true := by
  rw [isInfoComplete_iff] at h ⊢
  obtain ⟨hsome, hkeys⟩ := h
  constructor
  · exact mergeFold_isSome r old now AllFieldKeys (conv, []) hsome
  · intro f hf
    exact mergeFold_nonempty r old now AllFieldKeys (conv, []) f.Key
      (hkeys f hf)

/-- handleSuggestion_collected: the suggestion path never touches the
collected fields. -/
theorem handleSuggestion_collected (env : EngineEnv) (conv : Conversation)
    (content : String) (out : ProcessOutcome)
    (h : handleSuggestion env conv content = .ok out) :
    out.conv.CollectedInfo = conv.CollectedInfo := by
  unfold handleSuggestion at h
  split at h
  · injection h with h1
    subst h1
    rfl
  · exact absurd h (by simp)

/-- buildEscalateResponse_collected: building the escalation reply never
touches the collected fields. -/
theorem buildEscalateResponse_collected (env : EngineEnv)
    (conv : Conversation) (called : Bool) (out : ProcessOutcome)
    (h : buildEscalateResponse env conv called = .ok out) :
    out.conv.CollectedInfo = conv.CollectedInfo := by
  simp only [buildEscalateResponse] at h
  repeat' split at h
  all_goals
    first
      | exact Except.noConfusion h
      | (injection h with h1; subst h1; rfl)

/-- handleFileMessage_collected: the file path never touches the collected
fields. -/
theorem handleFileMessage_collected (env : EngineEnv) (conv : Conversation)
    (content fileKey messageID : String) (out : ProcessOutcome)
    (h : handleFileMessage env conv content fileKey messageID = .ok out) :
    out.conv.CollectedInfo = conv.CollectedInfo := by
  simp only [handleFileMessage, buildEscalateResponse] at h
  repeat' split at h
  all_goals
    first
      | exact Except.noConfusion h
      | (injection h with h1; subst h1; rfl)

/-- processMessage_complete: every `ProcessMessage` path preserves a complete
session. -/
theorem processMessage_complete (env : EngineEnv) (conv : Conversation)
    (content msgType fileKey messageID : String) (out : ProcessOutcome)
    (h : conv.IsInfoComplete = true)
    (hpm : ProcessMessage env conv content msgType fileKey messageID = .ok out) :
    out.conv.IsInfoComplete = true := by
  simp only [ProcessMessage] at hpm
  repeat' split at hpm
  all_goals
    first
      | exact Except.noConfusion hpm
      | (injection hpm with h1; subst h1; exact h)
      | (rw [isInfoComplete_congr out.conv conv
            (handleFileMessage_collected env conv content fileKey messageID
              out hpm)]
         exact h)
      | (rw [isInfoComplete_congr out.conv conv
            (handleSuggestion_collected env conv _ out hpm)]
         exact h)
      | (rename_i hc
         rw [isInfoComplete_congr out.conv _
            (buildEscalateResponse_collected env _ _ out hpm)]
         exact hc)
      | (injection hpm with h1
         subst h1
         exact (isInfoComplete_congr _ _ rfl).trans
           (merge_preserves_complete _ _ _ _
             ((isInfoComplete_congr _ conv rfl).trans h)))

/-! ### Claim theorems and witnesses -/

/-- C1 (non-erasure of collected fields): if the extraction result's value
for a schema field key is the empty string while the session's
`CollectedInfo` already holds a non-empty value for that key, the merge step
leaves that stored value unchanged; moreover the merge never removes or
empties any previously collected non-empty value. -/
theorem claim1_non_erasure (conv : Conversation) (r : ExtractionResult)
    (oldInfo : List (String × String)) (now : Int) (key : String)
    (hEmpty : (lookupKV r.ToFieldMap key).getD "" = "")
    (hStored : (lookupKV (conv.CollectedInfo.getD []) key).getD "" ≠ "") :
    lookupKV ((mergeExtractedInfo conv r oldInfo now).1.CollectedInfo.getD [])
        key =
      lookupKV (conv.CollectedInfo.getD []) key ∧
    ∀ k0, (lookupKV (conv.CollectedInfo.getD []) k0).getD "" ≠ "" →
      (lookupKV
        ((mergeExtractedInfo conv r oldInfo now).1.CollectedInfo.getD [])
        k0).getD "" ≠ "" := by
  refine ⟨?_, ?_⟩
  · exact mergeFold_lookup_empty r oldInfo now AllFieldKeys (conv, []) key
      hEmpty
  · intro k0 h0
    exact mergeFold_nonempty r oldInfo now AllFieldKeys (conv, []) k0 h0

/-- convC1 is a session that has already collected a non-empty issue field. -/
def convC1 : Conversation :=
  ⟨"oc_1", "ou_1", "Ada", [], ModeIssue, some [("issue", "app crashes")],
   [], "", 0, 0⟩

/-- Witness for C1 at a concrete session and the all-empty extraction. -/
theorem claim1_non_erasure_witness :
    lookupKV ((mergeExtractedInfo convC1 emptyExtraction
        (getCollectedInfoSnapshot convC1) 5).1.CollectedInfo.getD [])
        "issue" =
      lookupKV (convC1.CollectedInfo.getD []) "issue" :=
  (claim1_non_erasure convC1 emptyExtraction (getCollectedInfoSnapshot convC1)
    5 "issue" (by decide) (by decide)).1

/-- C2 (completion monotonicity): once `IsInfoComplete` is true for a
session, it stays true after any merge of any extraction result, after any
appended message or file, and after any full `ProcessMessage` step; only an
explicit clear of the fields can falsify it. -/
theorem claim2_completion_monotone (conv : Conversation)
    (h : conv.IsInfoComplete = true) :
    (∀ r oldInfo now,
        (mergeExtractedInfo conv r oldInfo now).1.IsInfoComplete = true) ∧
    (∀ role content now,
        (conv.AddMessage role content now).IsInfoComplete = true) ∧
    (∀ f now, (conv.AddFile f now).IsInfoComplete = true) ∧
    (∀ env content msgType fileKey messageID out,
        ProcessMessage env conv content msgType fileKey messageID = .ok out →
        out.conv.IsInfoComplete = true) := by
  refine ⟨?_, ?_, ?_, ?_⟩
  · intro r oldInfo now
    exact merge_preserves_complete conv r oldInfo now h
  · intro role content now
    exact (isInfoComplete_congr _ conv rfl).trans h
  · intro f now
    exact (isInfoComplete_congr _ conv rfl).trans h
  · intro env content msgType fileKey messageID out hpm
    exact processMessage_complete env conv content msgType fileKey messageID
      out h hpm

/-- convFull is a session with every required field collected. -/
def convFull : Conversation :=
  ⟨"oc_6", "ou_6", "Fu", [], ModeIssue,
   some [("issue", "a"), ("occur_time", "b"), ("reproducible", "c"),
         ("app_version", "d"), ("glasses_version", "e"), ("glasses_sn", "f"),
         ("ring_version", "g"), ("ring_sn", "h"), ("phone_model", "i"),
         ("phone_os", "j")],
   [], "", 0, 0⟩

/-- Witness for C2 at a concrete complete session. -/
theorem claim2_completion_monotone_witness :
    (mergeExtractedInfo convFull emptyExtraction
      (getCollectedInfoSnapshot convFull) 3).1.IsInfoComplete = true :=
  (claim2_completion_monotone convFull (by rfl)).1 emptyExtraction
    (getCollectedInfoSnapshot convFull) 3

/-- C3 (merge idempotence): applying the merge a second time in succession
with the same extraction result (snapshotting the state produced by the
first application, exactly as `ProcessMessage` does) changes nothing: the
second application returns the first's conversation unchanged, with no
change notes. -/
theorem claim3_merge_idempotent (conv : Conversation) (r : ExtractionResult)
    (n1 n2 : Int) :
    mergeExtractedInfo
        (mergeExtractedInfo conv r (getCollectedInfoSnapshot conv) n1).1 r
        (getCollectedInfoSnapshot
          (mergeExtractedInfo conv r (getCollectedInfoSnapshot conv) n1).1)
        n2 =
      ((mergeExtractedInfo conv r (getCollectedInfoSnapshot conv) n1).1,
       []) := by
  have hinv : mergeInv r (getCollectedInfoSnapshot conv) conv :=
    fun k0 => Or.inl rfl
  have hstable : ∀ k ∈ AllFieldKeys,
      keyStable r
        (mergeExtractedInfo conv r (getCollectedInfoSnapshot conv) n1).1 k :=
    fun k hk => mergeFold_establishes r (getCollectedInfoSnapshot conv) n1
      AllFieldKeys (conv, []) k hk hinv
  exact mergeFold_noop r _ n2 AllFieldKeys (_, []) hstable

/-- C4 (completion is a pure recomputed predicate): `IsInfoComplete` is true
iff every required schema key is present in `CollectedInfo` with a non-empty
value, and its result depends on nothing but `CollectedInfo`. -/
theorem claim4_completion_pure (c c' : Conversation) :
    (c.IsInfoComplete = true ↔
      ∀ f ∈ RequiredFields, ∃ v,
        lookupKV (c.CollectedInfo.getD []) f.Key = some v ∧ v ≠ "") ∧
    (c.CollectedInfo = c'.CollectedInfo →
      c.IsInfoComplete = c'.IsInfoComplete) := by
  constructor
  · rw [isInfoComplete_iff]
    constructor
    · rintro ⟨hs, hk⟩ f hf
      have hb := hk f hf
      cases hm : lookupKV (c.CollectedInfo.getD []) f.Key with
      | none =>
          rw [hm] at hb
          exact absurd rfl hb
      | some v =>
          rw [hm] at hb
          exact ⟨v, rfl, hb⟩
    · intro hall
      constructor
      · cases hc : c.CollectedInfo with
        | some m => rfl
        | none =>
            exfalso
            obtain ⟨v, hv, hvne⟩ := hall
              ⟨"issue", "问题描述 / Issue Description", "问题描述"⟩ (by decide)
            rw [hc] at hv
            exact Option.noConfusion hv
      · intro f hf
        obtain ⟨v, hv, hvne⟩ := hall f hf
        rw [hv]
        exact hvne
  · intro h
    exact isInfoComplete_congr c c' h

/-- convC4a and convC4b agree on collected fields but on nothing else. -/
def convC4a : Conversation :=
  ⟨"a", "u", "n", [], ModeIssue, some [("issue", "x")], [], "", 0, 0⟩

/-- convC4b differs from `convC4a` everywhere except `CollectedInfo`. -/
def convC4b : Conversation :=
  ⟨"b", "u2", "n2", [⟨"user", "hi", 1⟩], ModeUnknown, some [("issue", "x")],
   [⟨"m", "k", "f"⟩], "s", 3, 4⟩

/-- Witness for C4: two sessions with the same collected fields evaluate
completion identically. -/
theorem claim4_completion_pure_witness :
    convC4a.IsInfoComplete = convC4b.IsInfoComplete :=
  (claim4_completion_pure convC4a convC4b).2 rfl

/-- C5 (dedup fail-closed on transport error): with a non-empty message ID
and a configured dedup store, a transport error from the claim call makes the
handler drop the event — it returns no error, never invokes the delegated
message handler (the only code that mutates session state), and leaves the
dedup store untouched. -/
theorem claim5_dedup_fail_closed (env : HandlerEnv) (store : List String)
    (msg : EventMessage)
    (hid : msg.messageID ≠ "") (hstore : env.storePresent = true)
    (herr : env.dedupErr = true) :
    handlePrivateMessage env store msg = ⟨none, false, store⟩ := by
  unfold handlePrivateMessage
  rw [if_pos ⟨hid, hstore⟩, if_pos herr]

/-- Witness for C5 at a concrete errored claim call. -/
theorem claim5_dedup_fail_closed_witness :
    handlePrivateMessage ⟨true, true, none⟩ ["om_0"]
        ⟨"oc", "ou", "om_1", "p2p", "text"⟩ =
      ⟨none, false, ["om_0"]⟩ :=
  claim5_dedup_fail_closed ⟨true, true, none⟩ ["om_0"]
    ⟨"oc", "ou", "om_1", "p2p", "text"⟩ (by decide) rfl rfl

/-- C10 (ignored non-private messages still consume their dedup claim): a
fresh event with a non-empty message ID whose channel type is not "p2p" is
claimed in the dedup store before the channel filter runs, then dropped
without error and without invoking the delegated handler; a redelivery of the
same message ID is then dropped as a duplicate. -/
theorem claim10_non_p2p_consumes_claim (env env2 : HandlerEnv)
    (store : List String) (msg : EventMessage)
    (hid : msg.messageID ≠ "") (hstore : env.storePresent = true)
    (herr : env.dedupErr = false) (hct : msg.chatType ≠ "p2p")
    (hnew : store.contains msg.messageID = false)
    (hstore2 : env2.storePresent = true) (herr2 : env2.dedupErr = false) :
    handlePrivateMessage env store msg =
      ⟨none, false, msg.messageID :: store⟩ ∧
    handlePrivateMessage env2 (msg.messageID :: store) msg =
      ⟨none, false, msg.messageID :: store⟩ := by
  constructor
  · have htry : TryMarkMessageProcessed store msg.messageID =
        (true, msg.messageID :: store) := by
      unfold TryMarkMessageProcessed
      rw [if_neg (by rw [hnew]; exact Bool.false_ne_true)]
    unfold handlePrivateMessage
    rw [if_pos ⟨hid, hstore⟩, if_neg (by rw [herr]; exact Bool.false_ne_true),
        htry]
    simp [dispatchMessage, hct]
  · have htry : TryMarkMessageProcessed (msg.messageID :: store)
        msg.messageID = (false, msg.messageID :: store) := by
      unfold TryMarkMessageProcessed
      rw [if_pos (by simp)]
    unfold handlePrivateMessage
    rw [if_pos ⟨hid, hstore2⟩,
        if_neg (by rw [herr2]; exact Bool.false_ne_true), htry]
    rfl

/-- Witness for C10 at a concrete group-chat message. -/
theorem claim10_non_p2p_consumes_claim_witness :
    handlePrivateMessage ⟨true, false, none⟩ []
        ⟨"oc", "ou", "om_2", "group", "text"⟩ =
      ⟨none, false, ["om_2"]⟩ ∧
    handlePrivateMessage ⟨true, false, none⟩ ["om_2"]
        ⟨"oc", "ou", "om_2", "group", "text"⟩ =
      ⟨none, false, ["om_2"]⟩ :=
  claim10_non_p2p_consumes_claim ⟨true, false, none⟩ ⟨true, false, none⟩ []
    ⟨"oc", "ou", "om_2", "group", "text"⟩ (by decide) rfl rfl (by decide)
    (by decide) rfl rfl

/-- isSuggestion_ne_empty: a recognized suggestion trigger is never the empty
string. -/
theorem isSuggestion_ne_empty (s : String) (h : isSuggestion s = true) :
    ¬ s = "" := by
  intro he
  rw [he] at h
  exact absurd h (by decide)

/-- C6 (suggestion transition): in Unspecified mode, a text whose trimmed
form matches a recognized bilingual suggestion trigger makes `ProcessMessage`
enter Suggestion mode, record the trimmed text as the suggestion, append the
user message (and the acknowledgment), return the sentinel-prefixed response,
and never invoke the field extractor or the collection loop. -/
theorem claim6_suggestion_transition (env : EngineEnv) (conv : Conversation)
    (content fileKey messageID : String)
    (hmode : conv.Mode = ModeUnknown)
    (hsug : isSuggestion (trimSpaceGo content) = true)
    (hsave : env.saveOk = true) :
    ProcessMessage env conv content "text" fileKey messageID =
      .ok ⟨(({ conv with
                Mode := ModeSuggestion
                SuggestionText := trimSpaceGo content }).AddMessage "user"
               (trimSpaceGo content) env.now).AddMessage
               "assistant" (suggestionAck (trimSpaceGo content)) env.now,
           EscalateMarker ++ suggestionAck (trimSpaceGo content), false⟩ := by
  have htrim : ¬ trimSpaceGo content = "" := isSuggestion_ne_empty _ hsug
  simp only [ProcessMessage, handleSuggestion]
  rw [if_neg (fun hne : ¬ "text" = "text" => hne rfl), if_neg htrim,
      if_pos ⟨hmode, hsug⟩, if_pos hsave]

/-- envSug is an engine environment for the suggestion-path witness. -/
def envSug : EngineEnv := ⟨false, .error "unused", true, 7⟩

/-- convSug is a fresh session in Unspecified mode. -/
def convSug : Conversation :=
  ⟨"oc_2", "ou_2", "Bea", [], ModeUnknown, some [], [], "", 0, 0⟩

/-- Witness for C6 on the spec's Scenario B input. -/
theorem claim6_suggestion_transition_witness :
    ProcessMessage envSug convSug "feedback: the button is broken" "text" ""
        "" =
      .ok ⟨(({ convSug with
                Mode := ModeSuggestion
                SuggestionText :=
                  trimSpaceGo "feedback: the button is broken" }).AddMessage
               "user"
               (trimSpaceGo "feedback: the button is broken")
               envSug.now).AddMessage "assistant"
               (suggestionAck (trimSpaceGo "feedback: the button is broken"))
               envSug.now,
           EscalateMarker ++
             suggestionAck (trimSpaceGo "feedback: the button is broken"),
           false⟩ :=
  claim6_suggestion_transition envSug convSug
    "feedback: the button is broken" "" "" rfl (by decide) rfl

/-- C7 (mandatory summary post): if posting the rendered summary to the
hand-off channel fails, `HandleEscalation` returns that error and performs
none of the later steps (no file relayed, no user notification); and whenever
the post succeeds the pipeline returns no error regardless of every other
step's outcome — the summary post is the only step whose failure aborts. -/
theorem claim7_summary_post_mandatory (env : EscEnv) (conv : Conversation) :
    (∀ e, env.postOutcome = .error e →
        HandleEscalation env conv =
          ⟨some e, conv.SenderID != "", false, [], false⟩) ∧
    (∀ root, env.postOutcome = .ok root →
        (HandleEscalation env conv).err = none) := by
  constructor
  · intro e he
    unfold HandleEscalation
    rw [he]
  · intro root hr
    unfold HandleEscalation
    rw [hr]

/-- envPostFail is an escalation environment whose summary post fails while
every other call would succeed. -/
def envPostFail : EscEnv :=
  ⟨.ok (), .error "post failed", fun _ => .ok ([1], "f.log"),
   fun _ _ => .ok "nk", fun _ _ => .ok (), .ok ()⟩

/-- convEsc is a session with one file, about to be escalated. -/
def convEsc : Conversation :=
  ⟨"oc_3", "ou_3", "Cy", [], ModeIssue, some [], [⟨"m1", "k1", "a.zip"⟩],
   "", 0, 0⟩

/-- Witness for C7: with a failing post, the pipeline aborts before any later
step. -/
theorem claim7_summary_post_mandatory_witness :
    HandleEscalation envPostFail convEsc =
      ⟨some "post failed", convEsc.SenderID != "", false, [], false⟩ :=
  (claim7_summary_post_mandatory envPostFail convEsc).1 "post failed" rfl

/-- relayFiles_filter: the per-file relay loop keeps exactly the files whose
own relay succeeds, in arrival order. -/
theorem relayFiles_filter (env : EscEnv) (root : String)
    (fs : List FileInfo) :
    relayFiles env root fs = fs.filter (relayOk env root) := by
  induction fs with
  | nil => rfl
  | cons f fs ih =>
      cases hf : forwardFileInThread env root f with
      | ok u =>
          simp [relayFiles, relayOk, List.filter_cons, hf, ih]
      | error e =>
          simp [relayFiles, relayOk, List.filter_cons, hf, ih]

/-- C8 (per-file fault isolation with order preservation): when the summary
post succeeds with a non-empty thread root, the escalation run returns no
error, and the relayed files are exactly those of the session's files (in
arrival order) whose individual relay — download, re-upload, thread reply —
succeeds: a failing file never prevents relaying of the later ones. -/
theorem claim8_file_relay_isolated (env : EscEnv) (conv : Conversation)
    (root : String)
    (hpost : env.postOutcome = .ok root) (hroot : root ≠ "") :
    (HandleEscalation env conv).err = none ∧
    (HandleEscalation env conv).relayed =
      conv.Files.filter (relayOk env root) := by
  unfold HandleEscalation
  rw [hpost]
  refine ⟨rfl, ?_⟩
  show (if conv.HasFiles ∧ root ≠ "" then relayFiles env root conv.Files
        else []) = conv.Files.filter (relayOk env root)
  by_cases hf : conv.HasFiles = true
  · rw [if_pos ⟨hf, hroot⟩]
    exact relayFiles_filter env root conv.Files
  · rw [if_neg (fun hc => hf hc.1)]
    have hnil : conv.Files = [] := by
      unfold Conversation.HasFiles at hf
      simpa using hf
    rw [hnil]
    rfl

/-- fileA is the first-arriving file of the C8 witness session. -/
def fileA : FileInfo := ⟨"m1", "k1", "a.log"⟩

/-- fileB is the second-arriving file of the C8 witness session. -/
def fileB : FileInfo := ⟨"m2", "k2", "b.log"⟩

/-- envTwoFiles is an escalation environment in which downloading the first
file fails while every step for the second file succeeds. -/
def envTwoFiles : EscEnv :=
  ⟨.ok (), .ok "root_1",
   fun f => if f.FileKey == "k1" then .error "download failed"
            else .ok ([1, 2], "b.log"),
   fun _ _ => .ok "nk", fun _ _ => .ok (), .ok ()⟩

/-- convTwoFiles is a session holding the two witness files in order. -/
def convTwoFiles : Conversation :=
  ⟨"oc_4", "ou_4", "Di", [], ModeIssue, some [], [fileA, fileB], "", 0, 0⟩

/-- Witness for C8 on the spec's Scenario D: first relay fails, second
succeeds, the run returns no error and only the second file is relayed. -/
theorem claim8_file_relay_isolated_witness :
    (HandleEscalation envTwoFiles convTwoFiles).err = none ∧
    (HandleEscalation envTwoFiles convTwoFiles).relayed = [fileB] := by
  have h := claim8_file_relay_isolated envTwoFiles convTwoFiles "root_1" rfl
    (by decide)
  exact ⟨h.1, h.2.trans (by rfl)⟩

/-- processMessage_issue: the IssueReport text path of `ProcessMessage`, when
the merged session is still incomplete, appends the user message, merges, and
replies with `buildSmartResponse`. -/
theorem processMessage_issue (env : EngineEnv) (conv : Conversation)
    (content fileKey messageID : String)
    (hmode : conv.Mode = ModeIssue)
    (htrim : ¬ trimSpaceGo content = "")
    (hsave : env.saveOk = true)
    (hmc : (mergeExtractedInfo
        (({ conv with Mode := ModeIssue }).AddMessage "user" content env.now)
        (effectiveExtraction env).1
        (getCollectedInfoSnapshot
          (({ conv with Mode := ModeIssue }).AddMessage "user" content
            env.now))
        env.now).1.IsInfoComplete = false) :
    ProcessMessage env conv content "text" fileKey messageID =
      .ok ⟨(mergeExtractedInfo
              (({ conv with Mode := ModeIssue }).AddMessage "user" content
                env.now)
              (effectiveExtraction env).1
              (getCollectedInfoSnapshot
                (({ conv with Mode := ModeIssue }).AddMessage "user" content
                  env.now))
              env.now).1.AddMessage "assistant"
             (buildSmartResponse
               (mergeExtractedInfo
                 (({ conv with Mode := ModeIssue }).AddMessage "user" content
                   env.now)
                 (effectiveExtraction env).1
                 (getCollectedInfoSnapshot
                   (({ conv with Mode := ModeIssue }).AddMessage "user"
                     content env.now))
                 env.now).2
               (mergeExtractedInfo
                 (({ conv with Mode := ModeIssue }).AddMessage "user" content
                   env.now)
                 (effectiveExtraction env).1
                 (getCollectedInfoSnapshot
                   (({ conv with Mode := ModeIssue }).AddMessage "user"
                     content env.now))
                 env.now).1) env.now,
           buildSmartResponse
             (mergeExtractedInfo
               (({ conv with Mode := ModeIssue }).AddMessage "user" content
                 env.now)
               (effectiveExtraction env).1
               (getCollectedInfoSnapshot
                 (({ conv with Mode := ModeIssue }).AddMessage "user" content
                   env.now))
               env.now).2
             (mergeExtractedInfo
               (({ conv with Mode := ModeIssue }).AddMessage "user" content
                 env.now)
               (effectiveExtraction env).1
               (getCollectedInfoSnapshot
                 (({ conv with Mode := ModeIssue }).AddMessage "user" content
                   env.now))
               env.now).1,
           (effectiveExtraction env).2⟩ := by
  have hNotUk : ¬ (conv.Mode = ModeUnknown ∧
      isSuggestion (trimSpaceGo content) = true) := by
    rintro ⟨h1, _⟩
    rw [hmode] at h1
    exact absurd h1 (by decide)
  have hNotSg : ¬ conv.Mode = ModeSuggestion := by
    rw [hmode]
    decide
  simp only [ProcessMessage]
  rw [if_neg (fun hne : ¬ "text" = "text" => hne rfl), if_neg htrim,
      if_neg hNotUk, if_neg hNotSg,
      if_neg (by rw [hmc]; exact Bool.false_ne_true), if_pos hsave]

/-- C9 (first-turn welcome precedence): on an IssueReport text turn that
collected no new field values, if the session's message log held at most one
prior message (so the log including the just-appended user message holds at
most two), the reply is the fixed welcome enumerating every required field
(and noting the optional ones); on any later turn the missing-field listing
is produced instead. -/
theorem claim9_first_turn_welcome (env : EngineEnv) (conv : Conversation)
    (content fileKey messageID : String)
    (hmode : conv.Mode = ModeIssue)
    (htrim : ¬ trimSpaceGo content = "")
    (hsave : env.saveOk = true)
    (hparts : (mergeExtractedInfo
        (({ conv with Mode := ModeIssue }).AddMessage "user" content env.now)
        (effectiveExtraction env).1
        (getCollectedInfoSnapshot
          (({ conv with Mode := ModeIssue }).AddMessage "user" content
            env.now))
        env.now).2 = [])
    (hinc : conv.IsInfoComplete = false) :
    (conv.Messages.length ≤ 1 → conv.CollectedInfo.getD [] = [] →
      ProcessMessage env conv content "text" fileKey messageID =
        .ok ⟨(({ conv with Mode := ModeIssue }).AddMessage "user" content
                env.now).AddMessage "assistant"
                (welcomeBlock (RequiredFields.map fun f : FieldDef => f.Name)) env.now,
             welcomeBlock (RequiredFields.map fun f : FieldDef => f.Name),
             (effectiveExtraction env).2⟩) ∧
    (2 ≤ conv.Messages.length →
      ProcessMessage env conv content "text" fileKey messageID =
        .ok ⟨(({ conv with Mode := ModeIssue }).AddMessage "user" content
                env.now).AddMessage "assistant"
                (askMissingBlock [] conv.GetMissingFields) env.now,
             askMissingBlock [] conv.GetMissingFields,
             (effectiveExtraction env).2⟩) := by
  have hmerge1 : (mergeExtractedInfo
      (({ conv with Mode := ModeIssue }).AddMessage "user" content env.now)
      (effectiveExtraction env).1
      (getCollectedInfoSnapshot
        (({ conv with Mode := ModeIssue }).AddMessage "user" content
          env.now))
      env.now).1 =
      ({ conv with Mode := ModeIssue }).AddMessage "user" content env.now :=
    merge_parts_nil _ _ _ _ hparts
  have hcomp2 :
      (({ conv with Mode := ModeIssue }).AddMessage "user" content
        env.now).IsInfoComplete = false :=
    (isInfoComplete_congr _ conv rfl).trans hinc
  have hmc : (mergeExtractedInfo
      (({ conv with Mode := ModeIssue }).AddMessage "user" content env.now)
      (effectiveExtraction env).1
      (getCollectedInfoSnapshot
        (({ conv with Mode := ModeIssue }).AddMessage "user" content
          env.now))
      env.now).1.IsInfoComplete = false := by
    rw [hmerge1]
    exact hcomp2
  have hlen2 : (({ conv with Mode := ModeIssue }).AddMessage "user" content
      env.now).Messages.length = conv.Messages.length + 1 := by
    simp [Conversation.AddMessage]
  have hpm := processMessage_issue env conv content fileKey messageID hmode
    htrim hsave hmc
  constructor
  · intro hl he
    have hmiss : (({ conv with Mode := ModeIssue }).AddMessage "user" content
        env.now).GetMissingFields = RequiredFields.map (fun f => f.Name) :=
      getMissingFields_all _ he
    have hresp : buildSmartResponse []
        (({ conv with Mode := ModeIssue }).AddMessage "user" content
          env.now) =
        welcomeBlock (RequiredFields.map fun f : FieldDef => f.Name) := by
      unfold buildSmartResponse
      rw [if_pos (by
        rw [hlen2]
        simp only [List.length_nil, decide_eq_true_eq, Bool.and_eq_true]
        exact ⟨by simp, by omega⟩), hmiss]
    rw [hpm, hparts, hmerge1, hresp]
  · intro hl
    have hresp : buildSmartResponse []
        (({ conv with Mode := ModeIssue }).AddMessage "user" content
          env.now) =
        askMissingBlock [] conv.GetMissingFields := by
      unfold buildSmartResponse
      rw [if_neg (by
        rw [hlen2]
        simp only [List.length_nil, decide_eq_true_eq, Bool.and_eq_true]
        rintro ⟨-, habs⟩
        omega)]
      rfl
    rw [hpm, hparts, hmerge1, hresp]

/-- envW9 is an engine environment with no LLM client configured. -/
def envW9 : EngineEnv := ⟨false, .error "unused", true, 9⟩

/-- convW9 is a fresh empty IssueReport session. -/
def convW9 : Conversation :=
  ⟨"oc_5", "ou_5", "Ed", [], ModeIssue, some [], [], "", 0, 0⟩

/-- Witness for C9: on the very first turn with nothing extracted, the reply
is the welcome message enumerating every required field. -/
theorem claim9_first_turn_welcome_witness :
    ProcessMessage envW9 convW9 "hello" "text" "" "" =
      .ok ⟨(({ convW9 with Mode := ModeIssue }).AddMessage "user" "hello"
              envW9.now).AddMessage "assistant"
              (welcomeBlock (RequiredFields.map fun f : FieldDef => f.Name))
              envW9.now,
           welcomeBlock (RequiredFields.map fun f : FieldDef => f.Name),
           (effectiveExtraction envW9).2⟩ :=
  (claim9_first_turn_welcome envW9 convW9 "hello" "" "" rfl (by decide) rfl
    (by rfl) rfl).1 (by decide) rfl

end FeishuBot
